import Mathlib

/-!
Shallow embedding of `ticker_search.py` (NASDAQ Trader ticker search).

Python strings are modelled as `List Char`; the Python string operations used by
the program (`lower`, `upper`, `strip`, `split`, `in`, `startswith`, lexicographic
comparison) are defined below on that representation, restricted to the ASCII
behaviour the data uses.  The parser (`get_stock_list`, lines 46-76), the ranking
function (`get_priority`, lines 91-103) and the result-list refresh (`update`,
lines 140-158) become pure functions; the cache/fetch control flow of
`get_stock_list` (lines 16-88) is modelled by explicit state passing over a
`World` record describing the cache file, the clock and the network.
-/

/-- A Python string, as its list of characters. -/
abbrev Str := List Char

/-- Coerce a Lean string literal to the model type. -/
def lit (s : String) : Str := s.data

/-- Python `str.lower()` (ASCII range, which covers the program's data). -/
def pyLower (s : Str) : Str := s.map Char.toLower

/-- Python `str.upper()` (ASCII range). -/
def pyUpper (s : Str) : Str := s.map Char.toUpper

/-- Python `str.strip()`: drop whitespace from both ends. -/
def pyStrip (s : Str) : Str :=
  ((s.dropWhile Char.isWhitespace).reverse.dropWhile Char.isWhitespace).reverse

/-- Python `s.startswith(q)`. -/
def pyStartswith : Str → Str → Bool
  | _, [] => true
  | [], _ :: _ => false
  | a :: s, b :: q => a == b && pyStartswith s q

/-- Python substring test `q in s`. -/
def pyIn (q : Str) : Str → Bool
  | [] => q.isEmpty
  | c :: t => pyStartswith (c :: t) q || pyIn q t

/-- Python `s.split(sep)` for a one-character separator. -/
def pySplit (sep : Char) : Str → List Str
  | [] => [[]]
  | c :: t =>
    if c = sep then [] :: pySplit sep t
    else
      match pySplit sep t with
      | [] => [[c]]
      | h :: r => (c :: h) :: r

/-- Python `list.index` returning the first index of `a`, `none` when absent. -/
def pyIndex (a : Str) : List Str → Option Nat
  | [] => none
  | b :: l => if b = a then some 0 else (pyIndex a l).map (· + 1)

/-- Python `str.splitlines()` accumulator: `cur` is the reversed current line. -/
def splitlinesAux : Str → Str → List Str
  | cur, [] => [cur.reverse]
  | cur, '\r' :: '\n' :: rest =>
      cur.reverse :: (if rest.isEmpty then [] else splitlinesAux [] rest)
  | cur, '\n' :: rest =>
      cur.reverse :: (if rest.isEmpty then [] else splitlinesAux [] rest)
  | cur, '\r' :: rest =>
      cur.reverse :: (if rest.isEmpty then [] else splitlinesAux [] rest)
  | cur, c :: rest => splitlinesAux (c :: cur) rest

/-- Python `str.splitlines()` (the terminators the NASDAQ file can contain). -/
def splitlines : Str → List Str
  | [] => []
  | s => splitlinesAux [] s

/-- Python string comparison: code-point lexicographic, a proper prefix first. -/
def strLe : Str → Str → Bool
  | [], _ => true
  | _ :: _, [] => false
  | a :: as, b :: bs =>
    if a.toNat < b.toNat then true
    else if b.toNat < a.toNat then false
    else strLe as bs

/-- Python comparison of `(Nat, str)` key tuples, as used by `sorted(key=...)`. -/
def keyLe (a b : Nat × Str) : Bool :=
  if a.1 < b.1 then true else if b.1 < a.1 then false else strLe a.2 b.2

/-! ### The parser: lines 46-76 of `get_stock_list` -/

/-- Header-column lookup (lines 51-60).  Python's `list.index` raises `ValueError`
on a missing name, and the `except` clause then assigns the fixed fallback indices
`1, 2, 7` to all three columns; `Test Issue` alone being absent is not an
exception and yields `None`. -/
def computeIndices (parts : List Str) : Nat × Nat × Option Nat :=
  match pyIndex (lit "Symbol") parts, pyIndex (lit "Security Name") parts with
  | some isym, some iname => (isym, iname, pyIndex (lit "Test Issue") parts)
  | _, _ => (1, 2, some 7)

/-- One data row (lines 62-71): a row with too few columns is skipped; a row whose
test-issue column (when present and in range) strips and uppercases to `Y` is
skipped; the symbol is stripped and uppercased, the name stripped; a row with an
empty symbol is dropped. -/
def parseRow (isym iname : Nat) (itest : Option Nat) (line : Str) :
    Option (Str × Str) :=
  let cols := pySplit '|' line
  if cols.length ≤ max isym iname then none
  else if (match itest with
           | some it => decide (it < cols.length) &&
               (pyUpper (pyStrip (cols.getD it [])) == lit "Y")
           | none => false) then none
  else
    let symbol := pyUpper (pyStrip (cols.getD isym []))
    let name := pyStrip (cols.getD iname [])
    if symbol.isEmpty then none else some (symbol, name)

/-- The sort order of line 73: Python `out.sort(key=lambda x: (x[0],))` compares
the one-element key tuples, i.e. the symbols. -/
def symLe (a b : Str × Str) : Prop := strLe a.1 b.1 = true

instance : DecidableRel symLe := fun _ _ => instDecidableEqBool _ _

/-- Lines 51-73: from the non-empty line list to the sorted record list.
`List.insertionSort` is a stable sort, matching Python `list.sort`. -/
def rawParse (lines : List Str) : List (Str × Str) :=
  match lines with
  | [] => []
  | header :: rows =>
    let idx := computeIndices (pySplit '|' header)
    List.insertionSort symLe (rows.filterMap (parseRow idx.1 idx.2.1 idx.2.2))

/-- Lines 46-76: the whole fetch-side parse, from the decoded response text to
the ticker list or a raised `ValueError`. -/
def parse_nasdaq (raw : Str) : Except String (List (Str × Str)) :=
  match splitlines (pyStrip raw) with
  | [] => Except.error "NASDAQ symbol file is empty"
  | header :: rows =>
    if (rawParse (header :: rows)).isEmpty then
      Except.error "No tickers parsed from NASDAQ symbol file."
    else Except.ok (rawParse (header :: rows))

/-- The test-issue check of line 66 for one row, with test column index `it`. -/
def rowTest (it : Nat) (r : Str) : Bool :=
  pyUpper (pyStrip ((pySplit '|' r).getD it [])) == lit "Y"

/-- The record lines 68-69 extract from one row: stripped uppercased symbol and
stripped name. -/
def rowRec (isym iname : Nat) (r : Str) : Str × Str :=
  (pyUpper (pyStrip ((pySplit '|' r).getD isym [])),
   pyStrip ((pySplit '|' r).getD iname []))

/-- A well-formed data row for column indices `isym`, `iname`, `it`: enough
columns to address all three indices, and a non-empty stripped symbol field. -/
def wfRow (isym iname it : Nat) (r : Str) : Prop :=
  max isym iname < (pySplit '|' r).length ∧
  it < (pySplit '|' r).length ∧
  pyStrip ((pySplit '|' r).getD isym []) ≠ []

instance (isym iname it : Nat) (r : Str) : Decidable (wfRow isym iname it r) := by
  unfold wfRow
  infer_instance

instance {ε α : Type} [DecidableEq ε] [DecidableEq α] : DecidableEq (Except ε α) :=
  fun a b =>
    match a, b with
    | Except.error e, Except.error f =>
      if h : e = f then isTrue (by rw [h])
      else isFalse (by intro hh; cases hh; exact h rfl)
    | Except.error _, Except.ok _ => isFalse (by intro hh; cases hh)
    | Except.ok _, Except.error _ => isFalse (by intro hh; cases hh)
    | Except.ok x, Except.ok y =>
      if h : x = y then isTrue (by rw [h])
      else isFalse (by intro hh; cases hh; exact h rfl)

/-! ### Ranking and the result-list refresh: `get_priority` and `update` -/

/-- `get_priority` (lines 91-103).  `query` arrives already lowercased, exactly as
`update` passes it. -/
def get_priority (s n query : Str) : Nat :=
  let sl := pyLower s
  let nl := pyLower n
  if sl = query then 0
  else if pyStartswith sl query then 1
  else if pyIn query sl then 2
  else if pyIn query nl then 3
  else 4

/-- The match filter of lines 144-147: the query occurs in the lowercased symbol
or in the lowercased name. -/
def matchesPred (query : Str) (x : Str × Str) : Bool :=
  pyIn query (pyLower x.1) || pyIn query (pyLower x.2)

/-- The sort key of line 150: `(get_priority(s, n, query), s.lower())`. -/
def sortKey (query : Str) (x : Str × Str) : Nat × Str :=
  (get_priority x.1 x.2 query, pyLower x.1)

/-- The order `sorted` uses on line 148-151: ascending comparison of `sortKey`. -/
def rankLe (query : Str) (a b : Str × Str) : Prop :=
  keyLe (sortKey query a) (sortKey query b) = true

instance (query : Str) : DecidableRel (rankLe query) :=
  fun _ _ => instDecidableEqBool _ _

/-- The result records `update` (lines 140-158) puts into the listbox, in order:
for a non-empty (lowercased) query, the matching records sorted by
`(priority, lowercased symbol)` and truncated to 100; for an empty query, the
first 100 records of the stock list.  `List.insertionSort` is stable, matching
Python `sorted`. -/
def update (stock_list : List (Str × Str)) (raw_query : Str) : List (Str × Str) :=
  let query := pyLower raw_query
  if query.isEmpty then stock_list.take 100
  else
    (List.insertionSort (rankLe query) (stock_list.filter (matchesPred query))).take 100

/-- The listbox label of lines 153 and 157: `"{s} - {n}"`, or the symbol alone
when the name is empty. -/
def label (s n : Str) : Str := if n.isEmpty then s else s ++ lit " - " ++ n

/-- The strings actually displayed: each result record rendered by `label`. -/
def displayedLabels (stock_list : List (Str × Str)) (raw_query : Str) : List Str :=
  (update stock_list raw_query).map fun x => label x.1 x.2

/-- The order claim C1 literally states: ascending by `(priority, symbol)` with
the symbol taken verbatim rather than lowercased.  Stated from the claim's words,
for comparison against `rankLe`, which line 150 of the code uses. -/
def rankLe_claimed (query : Str) (a b : Str × Str) : Prop :=
  keyLe (get_priority a.1 a.2 query, a.1) (get_priority b.1 b.2 query, b.1) = true

instance (query : Str) : DecidableRel (rankLe_claimed query) :=
  fun _ _ => instDecidableEqBool _ _

/-- `update` as claim C1 describes it, differing from `update` only in sorting by
the verbatim symbol instead of the lowercased one. -/
def update_claimed (stock_list : List (Str × Str)) (raw_query : Str) :
    List (Str × Str) :=
  let query := pyLower raw_query
  if query.isEmpty then stock_list.take 100
  else
    (List.insertionSort (rankLe_claimed query)
      (stock_list.filter (matchesPred query))).take 100

/-! ### The cache/fetch control flow of `get_stock_list` (lines 16-88) -/

/-- Outcome of `pickle.load` on the cache file: a list, or a raised exception. -/
inductive CacheRead where
  | ok (l : List (Str × Str))
  | err
deriving DecidableEq

/-- The outside world `get_stock_list` interacts with: the cache file on disk
(existence and modification date, as the calendar date `os.path.getmtime` maps
to), what reading the file would yield, today's date, the decoded text a network
fetch would return (`none`: the request raises), and whether writing the cache
file would succeed. -/
structure World where
  cacheMtime : Option Nat
  cacheRead : CacheRead
  today : Nat
  fetch : Option Str
  writeOk : Bool
deriving DecidableEq

/-- What one call to `get_stock_list` did: its return value or raised error,
whether the network fetch was attempted, and whether the cache file was written. -/
structure RunResult where
  result : Except String (List (Str × Str))
  fetched : Bool
  cacheWritten : Bool
deriving DecidableEq

/-- Lines 36-88: the fetch-and-parse path.  A fetch exception raises
`ValueError`; a parse error propagates; on success the list is returned and the
cache written when `use_cache` holds and the write succeeds (a failed write is
caught and only warned about). -/
def fetchPath (use_cache : Bool) (w : World) : RunResult :=
  match w.fetch with
  | none => ⟨Except.error "Failed to fetch NASDAQ symbol file", true, false⟩
  | some raw =>
    match parse_nasdaq raw with
    | Except.error e => ⟨Except.error e, true, false⟩
    | Except.ok out => ⟨Except.ok out, true, use_cache && w.writeOk⟩

/-- `get_stock_list` (lines 16-88) over an explicit world.  With caching on and
an existing cache file whose modification date is today, a successful
`pickle.load` returns the cached list with no fetch; a load exception, a stale
date, or a missing file all fall through to the fetch path. -/
def get_stock_list (use_cache : Bool) (w : World) : RunResult :=
  if use_cache then
    match w.cacheMtime with
    | some d =>
      if d = w.today then
        match w.cacheRead with
        | CacheRead.ok l => ⟨Except.ok l, false, false⟩
        | CacheRead.err => fetchPath use_cache w
      else fetchPath use_cache w
    | none => fetchPath use_cache w
  else fetchPath use_cache w

/-! ### Order lemmas for the sort relations -/

theorem strLe_total : ∀ a b : Str, strLe a b = true ∨ strLe b a = true
  | [], _ => Or.inl rfl
  | _ :: _, [] => Or.inr rfl
  | a :: as, b :: bs => by
    simp only [strLe]
    rcases Nat.lt_trichotomy a.toNat b.toNat with h | h | h
    · left
      simp [h]
    · rcases strLe_total as bs with ih | ih
      · left
        simp [h, ih]
      · right
        simp [h, ih]
    · right
      simp [h]

theorem strLe_trans : ∀ {a b c : Str},
    strLe a b = true → strLe b c = true → strLe a c = true
  | [], _, _, _, _ => rfl
  | _ :: _, [], _, h1, _ => by simp [strLe] at h1
  | _ :: _, _ :: _, [], _, h2 => by simp [strLe] at h2
  | x :: xs, y :: ys, z :: zs, h1, h2 => by
    simp only [strLe] at h1 h2 ⊢
    split_ifs at h1 h2 ⊢ <;>
      first
        | rfl
        | omega
        | exact strLe_trans h1 h2

theorem keyLe_total (a b : Nat × Str) : keyLe a b = true ∨ keyLe b a = true := by
  unfold keyLe
  rcases Nat.lt_trichotomy a.1 b.1 with h | h | h
  · left
    simp [h]
  · rcases strLe_total a.2 b.2 with h2 | h2
    · left
      simp [h, h2]
    · right
      simp [h, h2]
  · right
    simp [h]

theorem keyLe_trans {a b c : Nat × Str} (h1 : keyLe a b = true)
    (h2 : keyLe b c = true) : keyLe a c = true := by
  unfold keyLe at h1 h2 ⊢
  split_ifs at h1 h2 ⊢ <;>
    first
      | rfl
      | omega
      | exact strLe_trans h1 h2

theorem symLe_sorted_insertionSort (l : List (Str × Str)) :
    List.Sorted symLe (List.insertionSort symLe l) :=
  haveI : IsTotal (Str × Str) symLe := ⟨fun a b => strLe_total a.1 b.1⟩
  haveI : IsTrans (Str × Str) symLe := ⟨fun _ _ _ h1 h2 => strLe_trans h1 h2⟩
  List.sorted_insertionSort symLe l

theorem rankLe_sorted_insertionSort (q : Str) (l : List (Str × Str)) :
    List.Sorted (rankLe q) (List.insertionSort (rankLe q) l) :=
  haveI : IsTotal (Str × Str) (rankLe q) := ⟨fun _ _ => keyLe_total _ _⟩
  haveI : IsTrans (Str × Str) (rankLe q) := ⟨fun _ _ _ h1 h2 => keyLe_trans h1 h2⟩
  List.sorted_insertionSort (rankLe q) l

/-! ### Small string lemmas -/

theorem pyStartswith_refl : ∀ s : Str, pyStartswith s s = true
  | [] => rfl
  | c :: t => by simp [pyStartswith, pyStartswith_refl t]

theorem pyStartswith_pyIn : ∀ {s q : Str}, pyStartswith s q = true → pyIn q s = true
  | [], q, h => by
    cases q with
    | nil => rfl
    | cons b t => simp [pyStartswith] at h
  | c :: t, _, h => by simp [pyIn, h]

theorem pyIn_refl (s : Str) : pyIn s s = true :=
  pyStartswith_pyIn (pyStartswith_refl s)

theorem pyLower_isEmpty (s : Str) : (pyLower s).isEmpty = s.isEmpty := by
  cases s <;> rfl

/-! ### `get_priority`: rank characterization -/

theorem get_priority_eq_zero (s n query : Str) :
    get_priority s n query = 0 ↔ pyLower s = query := by
  simp only [get_priority]
  split_ifs with h1 h2 h3 h4 <;> simp [h1]

theorem get_priority_eq_one (s n query : Str) :
    get_priority s n query = 1 ↔
      pyLower s ≠ query ∧ pyStartswith (pyLower s) query = true := by
  simp only [get_priority]
  split_ifs with h1 h2 h3 h4 <;> simp_all

theorem get_priority_eq_two (s n query : Str) :
    get_priority s n query = 2 ↔
      pyStartswith (pyLower s) query = false ∧ pyIn query (pyLower s) = true := by
  simp only [get_priority]
  split_ifs with h1 h2 h3 h4
  · subst h1
    simp [pyStartswith_refl]
  all_goals simp_all

theorem get_priority_eq_three (s n query : Str) :
    get_priority s n query = 3 ↔
      pyIn query (pyLower s) = false ∧ pyIn query (pyLower n) = true := by
  simp only [get_priority]
  split_ifs with h1 h2 h3 h4
  · subst h1
    simp [pyIn_refl]
  · simp [pyStartswith_pyIn h2]
  all_goals simp_all

theorem get_priority_eq_four (s n query : Str) :
    get_priority s n query = 4 ↔
      pyIn query (pyLower s) = false ∧ pyIn query (pyLower n) = false := by
  simp only [get_priority]
  split_ifs with h1 h2 h3 h4
  · subst h1
    simp [pyIn_refl]
  · simp [pyStartswith_pyIn h2]
  all_goals simp_all

/-! ### Claim theorems -/

/-- C3: the priority rank is 0 exactly on an exact lowercased-symbol match, 1 on
a symbol-prefix match that is not exact, 2 on a symbol-substring match that is
not a prefix match, 3 on a name-substring match with no symbol match, and 4
otherwise; consequently for query "aapl" (the lowercasing the code applies to
"AAPL") an exact-symbol record ranks strictly before a symbol-prefix match,
which ranks strictly before a substring-in-name match. -/
theorem C3_get_priority_rank (s n query : Str) :
    (get_priority s n query = 0 ↔ pyLower s = query) ∧
    (get_priority s n query = 1 ↔
      pyLower s ≠ query ∧ pyStartswith (pyLower s) query = true) ∧
    (get_priority s n query = 2 ↔
      pyStartswith (pyLower s) query = false ∧ pyIn query (pyLower s) = true) ∧
    (get_priority s n query = 3 ↔
      pyIn query (pyLower s) = false ∧ pyIn query (pyLower n) = true) ∧
    (get_priority s n query = 4 ↔
      pyIn query (pyLower s) = false ∧ pyIn query (pyLower n) = false) ∧
    get_priority (lit "AAPL") (lit "Apple Inc.") (lit "aapl") <
      get_priority (lit "AAPLW") (lit "AAPL warrants") (lit "aapl") ∧
    get_priority (lit "AAPLW") (lit "AAPL warrants") (lit "aapl") <
      get_priority (lit "TRK") (lit "AAPL tracker") (lit "aapl") :=
  ⟨get_priority_eq_zero s n query, get_priority_eq_one s n query,
   get_priority_eq_two s n query, get_priority_eq_three s n query,
   get_priority_eq_four s n query, by decide, by decide⟩

/-- C6: for the empty query, `update` displays exactly the first 100 records of
the in-memory stock list in its stored (symbol-sorted) order. -/
theorem C6_update_empty_query (stock_list : List (Str × Str)) :
    update stock_list [] = stock_list.take 100 ∧
    (update stock_list []).length ≤ 100 := by
  refine ⟨rfl, ?_⟩
  rw [show update stock_list [] = stock_list.take 100 from rfl]
  simp

/-- C1 (amended): for every non-empty query string, the displayed result list is
the 100-entry truncation of a sorted permutation of exactly the records whose
lowercased symbol or lowercased name contains the lowercased query, the sort
ascending by the key (priority rank, lowercased symbol); at most 100 entries
are displayed regardless of the match count. -/
theorem C1_update_filter_sort_truncate (stock_list : List (Str × Str))
    (raw_query : Str) (h : raw_query ≠ []) :
    ∃ m : List (Str × Str),
      m.Perm (stock_list.filter (matchesPred (pyLower raw_query))) ∧
      List.Sorted (rankLe (pyLower raw_query)) m ∧
      update stock_list raw_query = m.take 100 ∧
      (update stock_list raw_query).length ≤ 100 := by
  have hq : (pyLower raw_query).isEmpty = false := by
    rw [pyLower_isEmpty]
    cases raw_query with
    | nil => exact absurd rfl h
    | cons c t => rfl
  have hu : update stock_list raw_query =
      (List.insertionSort (rankLe (pyLower raw_query))
        (stock_list.filter (matchesPred (pyLower raw_query)))).take 100 := by
    simp [update, hq]
  refine ⟨List.insertionSort (rankLe (pyLower raw_query))
      (stock_list.filter (matchesPred (pyLower raw_query))),
    List.perm_insertionSort _ _, rankLe_sorted_insertionSort _ _, hu, ?_⟩
  rw [hu]
  simp

/-- C1 (witness for the amended theorem): instantiated at a two-record stock
list and the query "a". -/
theorem C1_update_filter_sort_truncate_witness :
    ∃ m : List (Str × Str),
      m.Perm ([(lit "AB", []), (lit "A_B", [])].filter
        (matchesPred (pyLower (lit "a")))) ∧
      List.Sorted (rankLe (pyLower (lit "a"))) m ∧
      update [(lit "AB", []), (lit "A_B", [])] (lit "a") = m.take 100 ∧
      (update [(lit "AB", []), (lit "A_B", [])] (lit "a")).length ≤ 100 :=
  C1_update_filter_sort_truncate [(lit "AB", []), (lit "A_B", [])] (lit "a")
    (by decide)

/-- C1 (counterexample to the claim as stated): on the stock list
[("AB", ""), ("A_B", "")] — a legal parser output, both symbols uppercase and
the list sorted ascending by symbol — with query "a", both records match with
equal priority 1, and the code displays A_B before AB because line 150 sorts by
the lowercased symbol ("a_b" < "ab" since '_' < 'b'), while sorting by the
verbatim symbol as the claim states puts AB first ("AB" < "A_B" since
'B' < '_'). -/
theorem C1_sort_key_counterexample :
    update [(lit "AB", []), (lit "A_B", [])] (lit "a")
      = [(lit "A_B", []), (lit "AB", [])] ∧
    update_claimed [(lit "AB", []), (lit "A_B", [])] (lit "a")
      = [(lit "AB", []), (lit "A_B", [])] ∧
    update [(lit "AB", []), (lit "A_B", [])] (lit "a")
      ≠ update_claimed [(lit "AB", []), (lit "A_B", [])] (lit "a") ∧
    ¬ List.Sorted (rankLe_claimed (lit "a"))
        (update [(lit "AB", []), (lit "A_B", [])] (lit "a")) := by
  refine ⟨by decide, by decide, by decide, ?_⟩
  intro hs
  rw [show update [(lit "AB", []), (lit "A_B", [])] (lit "a")
      = [(lit "A_B", []), (lit "AB", [])] from by decide] at hs
  exact absurd
    (List.rel_of_sorted_cons hs (lit "AB", []) (by simp))
    (by decide)

/-! ### Parser lemmas -/

theorem ne_nil_of_isEmpty_ne {α : Type} {l : List α} (h : ¬ l.isEmpty = true) :
    l ≠ [] :=
  fun hn => h (by rw [hn]; rfl)

theorem parseRow_wf (isym iname it : Nat) (r : Str) (h : wfRow isym iname it r) :
    parseRow isym iname (some it) r =
      if rowTest it r then none else some (rowRec isym iname r) := by
  obtain ⟨h1, h2, h3⟩ := h
  have hsym : ¬ (pyUpper (pyStrip ((pySplit '|' r).getD isym []))).isEmpty = true := by
    cases hc : pyStrip ((pySplit '|' r).getD isym []) with
    | nil => exact absurd hc h3
    | cons a l => simp [pyUpper, hc]
  simp only [parseRow, rowTest, rowRec]
  rw [if_neg (Nat.not_le.mpr h1), decide_eq_true h2, Bool.true_and]
  by_cases ht : (pyUpper (pyStrip ((pySplit '|' r).getD it [])) == lit "Y") = true
  · rw [if_pos ht, if_pos ht]
  · rw [if_neg ht, if_neg ht, if_neg hsym]

theorem filterMap_parseRow_wf (isym iname it : Nat) :
    ∀ rows : List Str, (∀ r ∈ rows, wfRow isym iname it r) →
      rows.filterMap (parseRow isym iname (some it)) =
        (rows.filter fun r => !(rowTest it r)).map (rowRec isym iname)
  | [], _ => rfl
  | r :: rows, h => by
    have hr := parseRow_wf isym iname it r (h r (List.mem_cons_self r rows))
    have ih := filterMap_parseRow_wf isym iname it rows
      fun x hx => h x (List.mem_cons_of_mem r hx)
    by_cases ht : rowTest it r = true
    · simp [List.filterMap_cons, List.filter_cons, hr, ht, ih]
    · simp [List.filterMap_cons, List.filter_cons, hr, ht, ih]

theorem parseRow_ne_nil (isym iname : Nat) (itest : Option Nat) (r : Str)
    (p : Str × Str) (h : parseRow isym iname itest r = some p) : p.1 ≠ [] := by
  simp only [parseRow] at h
  split_ifs at h with h1 h2 h3
  cases h
  exact ne_nil_of_isEmpty_ne h3

theorem rawParse_symbols_ne_nil (lines : List Str) :
    ∀ p ∈ rawParse lines, p.1 ≠ [] := by
  intro p hp
  cases lines with
  | nil => cases hp
  | cons header rows =>
    simp only [rawParse] at hp
    rw [List.mem_insertionSort, List.mem_filterMap] at hp
    obtain ⟨r, _, hr⟩ := hp
    exact parseRow_ne_nil _ _ _ r p hr

theorem parse_nasdaq_symbols_ne_nil (raw : Str) (out : List (Str × Str))
    (h : parse_nasdaq raw = Except.ok out) : ∀ p ∈ out, p.1 ≠ [] := by
  rcases hsp : splitlines (pyStrip raw) with _ | ⟨header, rows⟩ <;>
    simp only [parse_nasdaq, hsp] at h
  · cases h
  · by_cases he : (rawParse (header :: rows)).isEmpty = true
    · rw [if_pos he] at h
      cases h
    · rw [if_neg he] at h
      cases h
      exact rawParse_symbols_ne_nil _

/-- C2: for a source with a header row that resolves the three column names
(to indices `isym`, `iname`, `itest`) and well-formed data rows, the parser
output is a permutation of exactly the non-test-issue rows, each as the pair
(stripped uppercased symbol, stripped name), and it is sorted ascending by
symbol. -/
theorem C2_parser_exact_rows (header : Str) (rows : List Str)
    (isym iname itest : Nat)
    (hidx : computeIndices (pySplit '|' header) = (isym, iname, some itest))
    (hwf : ∀ r ∈ rows, wfRow isym iname itest r) :
    (rawParse (header :: rows)).Perm
      ((rows.filter fun r => !(rowTest itest r)).map (rowRec isym iname)) ∧
    List.Sorted symLe (rawParse (header :: rows)) := by
  have hr : rawParse (header :: rows) =
      List.insertionSort symLe
        (rows.filterMap (parseRow isym iname (some itest))) := by
    simp [rawParse, hidx]
  constructor
  · rw [hr, filterMap_parseRow_wf isym iname itest rows hwf]
    exact List.perm_insertionSort _ _
  · rw [hr]
    exact symLe_sorted_insertionSort _

/-- C2 (witness): the standard NASDAQ header and two rows, one of them a test
issue. -/
theorem C2_parser_exact_rows_witness :
    (rawParse [lit "Nasdaq Traded|Symbol|Security Name|Listing Exchange|Market Category|ETF|Round Lot Size|Test Issue",
        lit "Y|AAPL|Apple Inc.|Q|Q|N|100|N",
        lit "Y|ZZZT|NASDAQ test listing|Q|Q|N|100|Y"]).Perm
      (([lit "Y|AAPL|Apple Inc.|Q|Q|N|100|N",
         lit "Y|ZZZT|NASDAQ test listing|Q|Q|N|100|Y"].filter
          fun r => !(rowTest 7 r)).map (rowRec 1 2)) ∧
    List.Sorted symLe
      (rawParse [lit "Nasdaq Traded|Symbol|Security Name|Listing Exchange|Market Category|ETF|Round Lot Size|Test Issue",
        lit "Y|AAPL|Apple Inc.|Q|Q|N|100|N",
        lit "Y|ZZZT|NASDAQ test listing|Q|Q|N|100|Y"]) :=
  C2_parser_exact_rows _
    [lit "Y|AAPL|Apple Inc.|Q|Q|N|100|N",
     lit "Y|ZZZT|NASDAQ test listing|Q|Q|N|100|Y"] 1 2 7
    (by decide) (by decide)

/-- C5: the parse path errors exactly as the claim says: an empty source (no
lines after strip and splitlines) raises the empty-file error, a source whose
rows parse to zero records raises the no-tickers error, and any successful
return is a non-empty list. -/
theorem C5_parse_errors (raw : Str) :
    (splitlines (pyStrip raw) = [] →
      parse_nasdaq raw = Except.error "NASDAQ symbol file is empty") ∧
    (∀ header rows, splitlines (pyStrip raw) = header :: rows →
      rawParse (header :: rows) = [] →
      parse_nasdaq raw =
        Except.error "No tickers parsed from NASDAQ symbol file.") ∧
    (∀ out, parse_nasdaq raw = Except.ok out → out ≠ []) := by
  refine ⟨?_, ?_, ?_⟩
  · intro h
    simp [parse_nasdaq, h]
  · intro header rows h hz
    simp [parse_nasdaq, h, hz]
  · intro out hok
    rcases hsp : splitlines (pyStrip raw) with _ | ⟨header, rows⟩ <;>
      simp only [parse_nasdaq, hsp] at hok
    · cases hok
    · by_cases he : (rawParse (header :: rows)).isEmpty = true
      · rw [if_pos he] at hok
        cases hok
      · rw [if_neg he] at hok
        cases hok
        exact ne_nil_of_isEmpty_ne he

/-- C5 (witness): an empty source, a header-only source, and a source with one
good row. -/
theorem C5_parse_errors_witness :
    parse_nasdaq [] = Except.error "NASDAQ symbol file is empty" ∧
    parse_nasdaq (lit "junk header") =
      Except.error "No tickers parsed from NASDAQ symbol file." ∧
    parse_nasdaq (lit "h|Symbol|Security Name\nx|AAPL|Apple Inc.") =
      Except.ok [(lit "AAPL", lit "Apple Inc.")] ∧
    [(lit "AAPL", lit "Apple Inc.")] ≠ ([] : List (Str × Str)) :=
  ⟨(C5_parse_errors []).1 (by decide),
   (C5_parse_errors (lit "junk header")).2.1 (lit "junk header") [] (by decide)
     (by decide),
   by decide,
   (C5_parse_errors (lit "h|Symbol|Security Name\nx|AAPL|Apple Inc.")).2.2
     [(lit "AAPL", lit "Apple Inc.")] (by decide)⟩

/-- C7: when locating the named columns in the header fails — "Symbol" or
"Security Name" is absent, so Python's `list.index` raises — all three column
indices fall back to the fixed values 1, 2, 7. -/
theorem C7_header_fallback (parts : List Str)
    (h : pyIndex (lit "Symbol") parts = none ∨
         pyIndex (lit "Security Name") parts = none) :
    computeIndices parts = (1, 2, some 7) := by
  unfold computeIndices
  rcases h with h | h <;>
    cases h1 : pyIndex (lit "Symbol") parts <;>
    cases h2 : pyIndex (lit "Security Name") parts <;>
    simp_all

/-- C7 (witness): a header with none of the expected column names. -/
theorem C7_header_fallback_witness :
    computeIndices (pySplit '|' (lit "a|b|c")) = (1, 2, some 7) :=
  C7_header_fallback _ (Or.inl (by decide))

/-- C10: the parser is total over malformed data rows: a row with too few
columns to address the symbol and name fields yields no record, a row whose
symbol field strips to the empty string yields no record, and inserting any
such row anywhere among the data rows leaves the parsed output unchanged. -/
theorem C10_malformed_rows_skipped (isym iname : Nat) (itest : Option Nat)
    (r : Str) :
    ((pySplit '|' r).length ≤ max isym iname →
      parseRow isym iname itest r = none) ∧
    (pyStrip ((pySplit '|' r).getD isym []) = [] →
      parseRow isym iname itest r = none) ∧
    (∀ rows1 rows2 : List Str, parseRow isym iname itest r = none →
      (rows1 ++ r :: rows2).filterMap (parseRow isym iname itest) =
        (rows1 ++ rows2).filterMap (parseRow isym iname itest)) := by
  refine ⟨?_, ?_, ?_⟩
  · intro h
    simp only [parseRow]
    rw [if_pos h]
  · intro h
    simp only [parseRow]
    split_ifs with h1 h2 h3
    · rfl
    · rfl
    · rfl
    · exact absurd (by rw [h]; rfl) h3
  · intro rows1 rows2 hnone
    simp [List.filterMap_append, List.filterMap_cons, hnone]

/-- C10 (witness): a one-column row and a row with a blank symbol field, under
the fallback indices 1, 2, 7. -/
theorem C10_malformed_rows_skipped_witness :
    parseRow 1 2 (some 7) (lit "short") = none ∧
    parseRow 1 2 (some 7) (lit "a| |name") = none ∧
    ([lit "g|AAPL|Apple"] ++ lit "short" :: [lit "g|MSFT|Microsoft"]).filterMap
        (parseRow 1 2 (some 7)) =
      ([lit "g|AAPL|Apple"] ++ [lit "g|MSFT|Microsoft"]).filterMap
        (parseRow 1 2 (some 7)) :=
  ⟨(C10_malformed_rows_skipped 1 2 (some 7) (lit "short")).1 (by decide),
   (C10_malformed_rows_skipped 1 2 (some 7) (lit "a| |name")).2.1 (by decide),
   (C10_malformed_rows_skipped 1 2 (some 7) (lit "short")).2.2
     [lit "g|AAPL|Apple"] [lit "g|MSFT|Microsoft"] (by decide)⟩

/-- C8: every record in a list returned by `get_stock_list` has a non-empty
symbol.  The fetch path guarantees this outright; the cache path returns a list
a previous successful run persisted, which the hypothesis `hcache` states holds
the same invariant. -/
theorem C8_symbols_nonempty (use_cache : Bool) (w : World)
    (out : List (Str × Str))
    (hcache : ∀ l, w.cacheRead = CacheRead.ok l → ∀ p ∈ l, p.1 ≠ [])
    (hok : (get_stock_list use_cache w).result = Except.ok out) :
    ∀ p ∈ out, p.1 ≠ [] := by
  have hfetch : ∀ u : Bool, (fetchPath u w).result = Except.ok out →
      ∀ p ∈ out, p.1 ≠ [] := by
    intro u hf
    rcases hw : w.fetch with _ | raw <;> simp only [fetchPath, hw] at hf
    · cases hf
    · rcases hp : parse_nasdaq raw with e | l <;> simp only [hp] at hf
      · cases hf
      · cases hf
        exact parse_nasdaq_symbols_ne_nil raw _ hp
  by_cases hu : use_cache = true <;> simp only [get_stock_list, hu] at hok <;>
    simp only [if_true, if_false, Bool.false_eq_true] at hok
  · rcases hm : w.cacheMtime with _ | d <;> simp only [hm] at hok
    · exact hfetch true hok
    · by_cases hd : d = w.today
      · rw [if_pos hd] at hok
        rcases hr : w.cacheRead with l | _ <;> simp only [hr] at hok
        · cases hok
          exact hcache _ hr
        · exact hfetch true hok
      · rw [if_neg hd] at hok
        exact hfetch true hok
  · exact hfetch false hok

/-- C8 (witness): a no-cache run against a two-line source. -/
theorem C8_symbols_nonempty_witness : lit "AAPL" ≠ ([] : Str) :=
  C8_symbols_nonempty false
    ⟨none, CacheRead.err, 0,
      some (lit "h|Symbol|Security Name\nx|AAPL|Apple Inc."), true⟩
    [(lit "AAPL", lit "Apple Inc.")]
    (fun _ hl => nomatch hl)
    (by decide)
    (lit "AAPL", lit "Apple Inc.") (by simp)

/-- C4: with caching enabled, a cache file dated today that loads successfully
is returned as-is with no fetch and no cache write; a missing file, a stale
date, or a load exception is non-fatal — the run proceeds exactly as the fetch
path, which always attempts the fetch. -/
theorem C4_cache_reuse (w : World) :
    (∀ d l, w.cacheMtime = some d → d = w.today → w.cacheRead = CacheRead.ok l →
      get_stock_list true w = ⟨Except.ok l, false, false⟩) ∧
    (w.cacheMtime = none → get_stock_list true w = fetchPath true w) ∧
    (∀ d, w.cacheMtime = some d → d ≠ w.today →
      get_stock_list true w = fetchPath true w) ∧
    (∀ d, w.cacheMtime = some d → d = w.today → w.cacheRead = CacheRead.err →
      get_stock_list true w = fetchPath true w) ∧
    (fetchPath true w).fetched = true := by
  refine ⟨?_, ?_, ?_, ?_, ?_⟩
  · intro d l hm hd hr
    simp [get_stock_list, hm, hd, hr]
  · intro hm
    simp [get_stock_list, hm]
  · intro d hm hd
    simp [get_stock_list, hm, hd]
  · intro d hm hd hr
    simp [get_stock_list, hm, hd, hr]
  · rcases hw : w.fetch with _ | raw <;> simp only [fetchPath, hw]
    rcases hp : parse_nasdaq raw with e | l <;> simp [hp]

/-- C4 (witness): the same-day/missing/stale/unreadable cache cases, each at a
concrete world. -/
theorem C4_cache_reuse_witness :
    get_stock_list true
        ⟨some 5, CacheRead.ok [(lit "AAPL", lit "Apple Inc.")], 5, none, true⟩ =
      ⟨Except.ok [(lit "AAPL", lit "Apple Inc.")], false, false⟩ ∧
    get_stock_list true ⟨none, CacheRead.err, 5, none, true⟩ =
      fetchPath true ⟨none, CacheRead.err, 5, none, true⟩ ∧
    get_stock_list true ⟨some 4, CacheRead.err, 5, none, true⟩ =
      fetchPath true ⟨some 4, CacheRead.err, 5, none, true⟩ ∧
    get_stock_list true ⟨some 5, CacheRead.err, 5, none, true⟩ =
      fetchPath true ⟨some 5, CacheRead.err, 5, none, true⟩ ∧
    (fetchPath true ⟨some 5, CacheRead.err, 5, none, true⟩).fetched = true :=
  ⟨(C4_cache_reuse _).1 5 [(lit "AAPL", lit "Apple Inc.")] rfl rfl rfl,
   (C4_cache_reuse _).2.1 rfl,
   (C4_cache_reuse _).2.2.1 4 rfl (by decide),
   (C4_cache_reuse _).2.2.2.1 5 rfl rfl rfl,
   (C4_cache_reuse ⟨some 5, CacheRead.err, 5, none, true⟩).2.2.2.2⟩

/-- C9: with the cache bypassed (`use_cache = False`), `get_stock_list` never
writes the cache file, and its whole outcome is independent of the cache file's
existence, date and contents: two worlds agreeing on the network response and
the writability of the disk produce identical runs. -/
theorem C9_no_cache_bypass (w v : World)
    (hf : w.fetch = v.fetch) (hw : w.writeOk = v.writeOk) :
    (get_stock_list false w).cacheWritten = false ∧
    get_stock_list false w = get_stock_list false v := by
  have hfp : ∀ u : World, get_stock_list false u = fetchPath false u :=
    fun u => rfl
  constructor
  · rw [hfp]
    rcases hc : w.fetch with _ | raw <;> simp only [fetchPath, hc]
    rcases hp : parse_nasdaq raw with e | l <;> simp [hp]
  · rw [hfp, hfp]
    simp only [fetchPath, hf, hw]

/-- C9 (witness): two worlds differing only in cache state. -/
theorem C9_no_cache_bypass_witness :
    (get_stock_list false
        ⟨some 3, CacheRead.ok [(lit "X", [])], 3, none, true⟩).cacheWritten
      = false ∧
    get_stock_list false ⟨some 3, CacheRead.ok [(lit "X", [])], 3, none, true⟩ =
      get_stock_list false ⟨none, CacheRead.err, 3, none, true⟩ :=
  C9_no_cache_bypass _ _ rfl rfl
